import Mathlib

/-!
Shallow embedding of `metagpt/repo_parser.py` (the source-structure
extraction and reconciliation engine) in Lean 4, together with theorems
settling the frozen claims about it.

Python strings are modelled as `List Char` (`PyStr`).  The Python string
primitives used by the source (`find`, `rfind`, slicing with possibly
negative indices, `strip`, `in`, `split`, `replace`) are reproduced below
with Python semantics; in particular `find`/`rfind` return `-1` on a miss
and slices clamp negative indices by adding the length.
-/

namespace RepoParserModel

abbrev PyStr := List Char

/-- The single-quote character (codepoint 39). -/
def sq : Char := Char.ofNat 39

/-- The double-quote character (codepoint 34). -/
def dq : Char := Char.ofNat 34

/-- Python `str.isspace` / regex `\s` character class. -/
def pyIsSpace (c : Char) : Bool :=
  c == ' ' || c == '\t' || c == '\n' || c == '\r' || c == Char.ofNat 11 || c == Char.ofNat 12

/-- Python `str.strip()`: drop leading and trailing whitespace. -/
def pyStrip (s : PyStr) : PyStr :=
  ((s.dropWhile pyIsSpace).reverse.dropWhile pyIsSpace).reverse

/-- Index of the first occurrence of `pat` in `s`, if any (Python `str.find` ≥ 0 case). -/
def findSub : PyStr → PyStr → Option Nat
  | s, pat =>
    if pat.isPrefixOf s then some 0
    else
      match s with
      | [] => none
      | _ :: t => (findSub t pat).map (· + 1)

/-- Index of the last occurrence of `pat` in `s`, if any (Python `str.rfind` ≥ 0 case). -/
def rfindSub : PyStr → PyStr → Option Nat
  | s, pat =>
    match s with
    | [] => if pat.isPrefixOf ([] : PyStr) then some 0 else none
    | _ :: t =>
      match rfindSub t pat with
      | some j => some (j + 1)
      | none => if pat.isPrefixOf s then some 0 else none

/-- Python `str.find`: first index of `pat` in `s`, or `-1`. -/
def pyFind (s pat : PyStr) : Int :=
  match findSub s pat with
  | some i => (i : Int)
  | none => -1

/-- Python `str.rfind`: last index of `pat` in `s`, or `-1`. -/
def pyRfind (s pat : PyStr) : Int :=
  match rfindSub s pat with
  | some i => (i : Int)
  | none => -1

/-- Python `pat in s` (substring containment). -/
def pyContains (s pat : PyStr) : Bool :=
  (findSub s pat).isSome

/-- Clamp a Python slice index: negative indices count from the end. -/
def pyClamp (n : Nat) (i : Int) : Nat :=
  if i < 0 then (i + n).toNat else min i.toNat n

/-- Python `s[a:b]` with `Int` indices (as produced by `find`/`rfind`). -/
def pySlice (s : PyStr) (a b : Int) : PyStr :=
  (s.take (pyClamp s.length b)).drop (pyClamp s.length a)

/-- Python `s.split(sep)` for a single-character separator. -/
def splitChar (sep : Char) : PyStr → List PyStr
  | [] => [[]]
  | c :: rest =>
    match splitChar sep rest with
    | [] => [[c]]
    | h :: t => if c == sep then [] :: h :: t else (c :: h) :: t

/-- `re.sub(r"['\"]", "", v)`: remove single and double quotes. -/
def removeQuotes (s : PyStr) : PyStr :=
  s.filter (fun c => !(c == sq || c == dq))

/-- `DotClassAttribute.remove_white_spaces`.  The source regex
`(?<!['\"])\s|(?<=['\"])\s` matches a whitespace character that is not
preceded by a quote, or one that is preceded by a quote; together the two
branches match every whitespace character, so the substitution removes all
whitespace. -/
def removeWhiteSpaces (s : PyStr) : PyStr :=
  s.filter (fun c => !pyIsSpace c)

/-- Lexicographic comparison of Python strings (codepoint order). -/
def lexLe : PyStr → PyStr → Bool
  | [], _ => true
  | _ :: _, [] => false
  | a :: as, b :: bs => if a < b then true else if b < a then false else lexLe as bs

/-- Insert into a `lexLe`-sorted list. -/
def insertLe (x : PyStr) : List PyStr → List PyStr
  | [] => [x]
  | y :: ys => if lexLe x y then x :: y :: ys else y :: insertLe x ys

/-- Python `list.sort()` on a list of strings (insertion sort; the inputs we
sort are duplicate-free, so stability is irrelevant). -/
def sortStrs (l : List PyStr) : List PyStr := l.foldr insertLe []

/-- `list(s)` for a Python `set` built by successive insertions: remove
duplicates keeping the first occurrence.  CPython's set iteration order is
hash-based and unspecified; insertion order is the deterministic stand-in
used by this model, and every theorem that depends on an order either sorts
first or concerns a singleton, except where a doc comment says otherwise. -/
def pySetListGo {α : Type} [DecidableEq α] (acc : List α) : List α → List α
  | [] => acc
  | x :: xs => if x ∈ acc then pySetListGo acc xs else pySetListGo (acc ++ [x]) xs

/-- See `pySetListGo`. -/
def pySetList {α : Type} [DecidableEq α] (l : List α) : List α := pySetListGo [] l

/-! ## Type-Signature Parser (`DotClassAttribute`, `DotReturn`) -/

/-- `metagpt.repo_parser.DotClassAttribute` (pydantic model). -/
structure DotClassAttribute where
  name : PyStr := []
  type_ : PyStr := []
  default_ : PyStr := []
  description : PyStr
  compositions : List PyStr := []
deriving Repr, DecidableEq

/-- The builtin/generic keyword filter set of `DotClassAttribute.parse_compositions`. -/
def filters : List PyStr :=
  ["str", "frozenset", "set", "int", "float", "complex", "bool", "dict", "list",
   "Union", "Dict", "Set", "Tuple", "NoneType", "None", "Any", "Optional",
   "Iterator", "Literal", "List"].map String.toList

/-- `DotClassAttribute.parse_compositions`: split the type expression on
`[`, `]`, `,`; strip/unquote each token; drop empty tokens and builtin
keywords; deduplicate (`set`).  The caller sorts the result, mirroring the
pydantic `sort` field validator. -/
def parseCompositions (types_part : PyStr) : List PyStr :=
  if types_part = [] then []
  else
    let modified := types_part.map (fun c => if c == '[' || c == ']' || c == ',' then '|' else c)
    let types := splitChar '|' modified
    pySetList ((types.map (fun t => removeQuotes (pyStrip t))).filter
      (fun t => t ≠ [] && !(t ∈ filters)))

/-- Scan of `DotClassAttribute._split_literal`'s `for` loop: starting after
`"Literal["` with bracket counter 1, return the index where the counter
returns to zero (the loop's `break`), if the loop reaches it before the
final character. -/
def literalEndGo : PyStr → Nat → Nat → Option Nat
  | [], _, _ => none
  | c :: rest, i, counter =>
    if c == '[' then literalEndGo rest (i + 1) (counter + 1)
    else if c == ']' then
      if counter - 1 > 0 then literalEndGo rest (i + 1) (counter - 1) else some i
    else literalEndGo rest (i + 1) counter

/-- `DotClassAttribute._split_literal`: locate the `Literal[...]` payload by
bracket-depth counting; quotes are removed from the surrounding parts but
kept inside the payload.  (The loop scans `range(bix+8, len(v)-1)` and the
end index defaults to `len(v)-1`.) -/
def splitLiteral (v : PyStr) : PyStr × PyStr × PyStr :=
  let tag := "Literal[".toList
  let bix := (findSub v tag).getD 0
  let region := (v.drop (bix + tag.length)).take (v.length - 1 - (bix + tag.length))
  let eix := (literalEndGo region (bix + tag.length) 1).getD (v.length - 1)
  let pre := removeQuotes (v.take bix)
  let lit := (v.take (eix + 1)).drop bix
  let post := removeQuotes (v.drop (eix + 1))
  (pre, lit, post)

/-- `DotClassAttribute.parse`'s first loop: copy `v` into `val`, tracking
whether a `:` or `=` was met and inserting an implicit `:` before the first
`=` when no `:` preceded it. -/
def attrScanStep : Bool × Bool × PyStr → Char → Bool × Bool × PyStr :=
  fun st c =>
    let mc := st.1
    let me := st.2.1
    let acc := st.2.2
    if c == ':' then (true, me, acc ++ [c])
    else if c == '=' then
      if !mc then (true, true, acc ++ [':', c]) else (mc, true, acc ++ [c])
    else (mc, me, acc ++ [c])

/-- `DotClassAttribute.parse`.  Total: every Python operation in the source
body (`find`, `rfind`, slicing, `strip`, `re.sub`, set/list building and the
pydantic constructor over `str` fields) is total. -/
def DotClassAttribute.parse (v : PyStr) : DotClassAttribute :=
  let st := v.foldl attrScanStep (false, false, [])
  let val0 := if st.1 then st.2.2 else st.2.2 ++ [':']
  let val := if st.2.1 then val0 else val0 ++ ['=']
  let cix := pyFind val [':']
  let eix := pyRfind val ['=']
  let name := pyStrip (pySlice val 0 cix)
  let type0 := pySlice val (cix + 1) eix
  let default0 := pyStrip (pySlice val (eix + 1) (val.length : Int))
  let type1 := removeWhiteSpaces type0
  let type2 := if type1 = "NoneType".toList then [] else type1
  let tcv : PyStr × PyStr :=
    if pyContains type2 "Literal[".toList then
      let p := splitLiteral type2
      (p.1 ++ p.2.1 ++ p.2.2, p.1 ++ "Literal".toList ++ p.2.2)
    else (removeQuotes type2, removeQuotes type2)
  let default1 := if default0 = "None".toList then [] else default0
  { name := name, type_ := tcv.1, default_ := default1, description := v,
    compositions := sortStrs (parseCompositions tcv.2) }

/-- `metagpt.repo_parser.DotReturn` (pydantic model). -/
structure DotReturn where
  type_ : PyStr := []
  description : PyStr
  compositions : List PyStr := []
deriving Repr, DecidableEq

/-- `DotReturn.parse`.  (The source never returns `None`: the empty-string
case returns a `DotReturn` with empty type and compositions.) -/
def DotReturn.parse (v : PyStr) : DotReturn :=
  if v = [] then { description := v }
  else
    let type_ := removeWhiteSpaces v
    { type_ := type_, description := v,
      compositions := sortStrs (parseCompositions type_) }

/-! ## Method-Signature Parser (`DotClassMethod`) -/

/-- `metagpt.repo_parser.DotClassMethod` (pydantic model).  The source
declares `return_args : Optional[DotReturn]`, but `parse` always assigns the
(never-`None`) result of `DotReturn.parse`, so it is modelled as a plain
field.  NOTE: unlike its sibling models, `DotClassMethod` has no `sort`
field validator for `aggregations`. -/
structure DotClassMethod where
  name : PyStr
  args : List DotClassAttribute := []
  return_args : DotReturn
  description : PyStr
  aggregations : List PyStr := []
deriving Repr, DecidableEq

/-- `DotClassMethod._parse_name`: strip optional `<tag>name</tag>` markup. -/
def parseMethodName (v : PyStr) : PyStr :=
  if pyContains v ['>'] then
    let bix := pyFind v ['>'] + 1
    let eix := pyRfind v "</".toList
    pyStrip (pySlice v bix eix)
  else pyStrip v

/-- The scanning loop of `DotClassMethod._parse_args`: split on commas at
bracket depth zero, keeping every character inside the parts (`cur` is the
current part, reversed).  The counter is an `Int`, as a stray `]` may drive
it negative in Python. -/
def splitTopArgsGo : PyStr → Int → PyStr → List PyStr → List PyStr
  | [], _, cur, parts => parts ++ [pyStrip cur.reverse]
  | c :: rest, counter, cur, parts =>
    if c == '[' then splitTopArgsGo rest (counter + 1) (c :: cur) parts
    else if c == ']' then splitTopArgsGo rest (counter - 1) (c :: cur) parts
    else if c == ',' && counter == 0 then
      splitTopArgsGo rest counter [] (parts ++ [pyStrip cur.reverse])
    else splitTopArgsGo rest counter (c :: cur) parts

/-- `DotClassMethod._parse_args`: empty input gives no arguments; otherwise
split at depth-0 commas, drop empty parts, and parse each part as an
attribute descriptor. -/
def parseArgs (v : PyStr) : List DotClassAttribute :=
  if v = [] then []
  else
    (splitTopArgsGo v 0 [] []).filterMap
      (fun p => if p = [] then none else some (DotClassAttribute.parse p))

/-- `DotClassMethod.parse`.  Negative `find`/`rfind` results flow into
Python slices exactly as in the source (e.g. with no parentheses,
`v[0:bix]` is `v[0:-1]`).  The `aggregations` set is modelled in insertion
order (see `pySetList`); the source does not sort it. -/
def DotClassMethod.parse (v : PyStr) : DotClassMethod :=
  let bix := pyFind v ['(']
  let eix := pyRfind v [')']
  let rix0 := pyRfind v [':']
  let rix := if rix0 < 0 || rix0 < eix then eix else rix0
  let name_part := pyStrip (pySlice v 0 bix)
  let args_part := pyStrip (pySlice v (bix + 1) eix)
  let return_args_part := pyStrip (pySlice v (rix + 1) (v.length : Int))
  let name := parseMethodName name_part
  let args := parseArgs args_part
  let return_args := DotReturn.parse return_args_part
  let aggregations :=
    pySetList (args.foldl (fun acc a => acc ++ a.compositions) [] ++ return_args.compositions)
  { name := name, args := args, return_args := return_args, description := v,
    aggregations := aggregations }

/-! ## Symbol Extractor (AST model, `node_to_str`, `extract_class_and_function_info`)

The Python `ast` node shapes used by the source are modelled as inductive
types.  Statements whose kind has no entry in `node_to_str`'s `mappings`
dict (e.g. `While`, `For`, `With`) are the `otherStmt` constructor;
expressions with no entry in `_parse_variable`'s `funcs` dict are
`otherExpr`.  `any_to_str` (runtime class-name dispatch) corresponds to
matching on the constructor; its rendered class-path string is
`exprKindStr`/`stmtKindStr`.  Raising code is modelled in `Except String`;
`logger.warning` diagnostics are not modelled (they do not affect data
flow). -/

/-- Python expression shapes relevant to `_parse_variable`/`_parse_expr`.
`constant none` is the constant `None` (whose "resolved value" is Python
`None`); other constant values are rendered as strings.  `simple`
conditions below cover non-`Compare`, non-`BoolOp` test expressions without
a `left` attribute (names, calls, constants, attributes). -/
inductive PyExpr where
  | constant (value : Option PyStr)
  | name (id : PyStr)
  | attr (value : PyExpr) (attrName : PyStr)
  | call (func : PyExpr)
  | tuple
  | otherExpr (kind : PyStr)
deriving Repr, DecidableEq

/-- `any_to_str` of an expression node: its class path. -/
def exprKindStr : PyExpr → PyStr
  | .constant _ => "ast.Constant".toList
  | .name _ => "ast.Name".toList
  | .attr _ _ => "ast.Attribute".toList
  | .call _ => "ast.Call".toList
  | .tuple => "ast.Tuple".toList
  | .otherExpr k => k

/-- `RepoParser._parse_variable`: best-effort resolution of an expression to
a value; the internal `try`/`except` swallows the `NotImplementedError` of
an unsupported shape and returns Python `None`, modelled as `none`. -/
def parseVariable : PyExpr → Option PyStr
  | .constant v => v
  | .name id => some id
  | .attr value a =>
    some (match value with
          | .name id => id ++ ['.'] ++ a
          | _ => a)
  | .call f => parseVariable f
  | .tuple => some []
  | .otherExpr _ => none

/-- `RepoParser._parse_expr`: only `Constant` and `Call` expression values
are handled; anything else raises `NotImplementedError` (uncaught). -/
def parseExprTokens (value : PyExpr) : Except String (List (Option PyStr)) :=
  match value with
  | .constant _ => .ok [some (exprKindStr value), parseVariable value]
  | .call f => .ok [some (exprKindStr value), parseVariable f]
  | _ => .error "NotImplementedError"

/-- `if` test shapes for `RepoParser._parse_if`. -/
inductive PyCond where
  | boolOp (values : List PyCond)
  | compare (left : PyExpr) (comparators : List PyExpr)
  | simple (e : PyExpr)
deriving Repr

/-- The `BoolOp` loop of `_parse_if`.  `_parse_if_compare` returns the
resolved `left` of a sub-comparison (a string or Python `None`) when the
value has a `left` attribute, else `[]`; `tokens.extend(<string>)` appends
its characters one by one, and `tokens.extend(None)` raises `TypeError`,
caught by the surrounding `except`, which returns the tokens accumulated so
far. -/
def parseIfBoolOp : List PyCond → List PyStr → List PyStr
  | [], tokens => tokens
  | v :: vs, tokens =>
    match v with
    | .compare l _ =>
      match parseVariable l with
      | some s => parseIfBoolOp vs (tokens ++ s.map (fun c => [c]))
      | none => tokens
    | _ => parseIfBoolOp vs tokens

/-- `RepoParser._parse_if`.  For a `Compare` test: the resolved left
operand (if truthy) followed by each truthy resolved comparator.  For any
other non-`BoolOp` test, `n.test.comparators` raises `AttributeError`,
caught by the `except`, returning `[]`. -/
def parseIf : PyCond → List PyStr
  | .boolOp values => parseIfBoolOp values []
  | .compare l comps =>
    let t0 := match parseVariable l with
              | some s => if s ≠ [] then [s] else []
              | none => []
    comps.foldl
      (fun acc item =>
        match parseVariable item with
        | some s => if s ≠ [] then acc ++ [s] else acc
        | none => acc) t0
  | .simple _ => []

/-- An `import` alias (`ast.alias`). -/
structure PyAlias where
  aname : PyStr
  asname : Option PyStr := none
deriving Repr, DecidableEq

/-- `RepoParser._parse_name` (alias rendering). -/
def parseAliasName (n : PyAlias) : PyStr :=
  match n.asname with
  | some a => n.aname ++ " as ".toList ++ a
  | none => n.aname

/-- Top-level Python statements as dispatched by `node_to_str`. -/
inductive PyStmt where
  | tryStmt (lineno end_lineno : Nat)
  | exprStmt (lineno end_lineno : Nat) (value : PyExpr)
  | importStmt (lineno end_lineno : Nat) (names : List PyAlias)
  | assign (lineno end_lineno : Nat) (targets : List PyExpr)
  | classDef (lineno end_lineno : Nat) (cname : PyStr) (body : List PyStmt)
  | functionDef (lineno end_lineno : Nat) (fname : PyStr)
  | asyncFunctionDef (lineno end_lineno : Nat) (fname : PyStr)
  | importFrom (lineno end_lineno : Nat) (module : Option PyStr) (names : List PyAlias)
  | ifStmt (lineno end_lineno : Nat) (test : PyCond)
  | annAssign (lineno end_lineno : Nat) (target : PyExpr)
  | otherStmt (lineno end_lineno : Nat) (kind : PyStr)
deriving Repr

/-- `any_to_str` of a statement node: its class path. -/
def stmtKindStr : PyStmt → PyStr
  | .tryStmt .. => "ast.Try".toList
  | .exprStmt .. => "ast.Expr".toList
  | .importStmt .. => "ast.Import".toList
  | .assign .. => "ast.Assign".toList
  | .classDef .. => "ast.ClassDef".toList
  | .functionDef .. => "ast.FunctionDef".toList
  | .asyncFunctionDef .. => "ast.AsyncFunctionDef".toList
  | .importFrom .. => "ast.ImportFrom".toList
  | .ifStmt .. => "ast.If".toList
  | .annAssign .. => "ast.AnnAssign".toList
  | .otherStmt _ _ k => k

/-- `metagpt.repo_parser.CodeBlockInfo`.  `tokens` holds resolved values
(possibly Python `None`, hence `Option`); `properties` is the
`{module, names}` dict produced only for `ImportFrom` (where `module` may
be Python `None` for relative imports). -/
structure CodeBlockInfo where
  lineno : Nat
  end_lineno : Nat
  type_name : PyStr
  tokens : List (Option PyStr) := []
  properties : Option (Option PyStr × List PyStr) := none
deriving Repr, DecidableEq

/-- `RepoParser.node_to_str`.  `Try` returns `None`; `Expr` delegates to
`_parse_expr` (whose `NotImplementedError` propagates — nothing catches
it); recognized kinds build a `CodeBlockInfo` from their handler value; for
`AnnAssign` a handler value of Python `None` (unresolvable target) is
neither `dict`, `list` nor `str`, so `node_to_str` raises
`NotImplementedError`; unrecognized kinds log a warning and return `None`. -/
def nodeToStr (node : PyStmt) : Except String (Option CodeBlockInfo) :=
  match node with
  | .tryStmt _ _ => .ok none
  | .exprStmt l e value => do
    let toks ← parseExprTokens value
    .ok (some { lineno := l, end_lineno := e, type_name := "ast.Expr".toList, tokens := toks })
  | .importStmt l e names =>
    .ok (some { lineno := l, end_lineno := e, type_name := "ast.Import".toList,
                tokens := names.map (fun n => some (parseAliasName n)) })
  | .assign l e targets =>
    .ok (some { lineno := l, end_lineno := e, type_name := "ast.Assign".toList,
                tokens := targets.map parseVariable })
  | .classDef l e n _ =>
    .ok (some { lineno := l, end_lineno := e, type_name := "ast.ClassDef".toList,
                tokens := [some n] })
  | .functionDef l e n =>
    .ok (some { lineno := l, end_lineno := e, type_name := "ast.FunctionDef".toList,
                tokens := [some n] })
  | .asyncFunctionDef l e n =>
    .ok (some { lineno := l, end_lineno := e, type_name := "ast.AsyncFunctionDef".toList,
                tokens := [some n] })
  | .importFrom l e module names =>
    .ok (some { lineno := l, end_lineno := e, type_name := "ast.ImportFrom".toList,
                properties := some (module, names.map parseAliasName) })
  | .ifStmt l e test =>
    .ok (some { lineno := l, end_lineno := e, type_name := "ast.If".toList,
                tokens := (parseIf test).map some })
  | .annAssign l e target =>
    match parseVariable target with
    | some s =>
      .ok (some { lineno := l, end_lineno := e, type_name := "ast.AnnAssign".toList,
                  tokens := [some s] })
    | none => .error "NotImplementedError"
  | .otherStmt _ _ _ => .ok none

/-- `Bool` view of an `Except` succeeding. -/
def exceptIsOk {ε α : Type} : Except ε α → Bool
  | .ok _ => true
  | .error _ => false

/-- One class entry of `RepoFileInfo.classes`: `{"name": ..., "methods": ...}`. -/
structure ClassEntry where
  cname : PyStr
  methods : List PyStr
deriving Repr

/-- `metagpt.repo_parser.RepoFileInfo`.  `file` is the path relative to the
analysis root (`file_path.relative_to(self.base_directory)`), taken here as
given. -/
structure RepoFileInfo where
  file : PyStr
  classes : List ClassEntry := []
  functions : List PyStr := []
  globals : List PyStr := []
  page_info : List CodeBlockInfo := []
deriving Repr

/-- `metagpt.repo_parser.is_func`. -/
def isFunc : PyStmt → Bool
  | .functionDef .. => true
  | .asyncFunctionDef .. => true
  | _ => false

/-- `[m.name for m in node.body if is_func(m)]`. -/
def methodNames (body : List PyStmt) : List PyStr :=
  body.filterMap
    (fun m => match m with
              | .functionDef _ _ n => some n
              | .asyncFunctionDef _ _ n => some n
              | _ => none)

/-- An assignment target contributes a global only when it is a bare name. -/
def nameTarget : PyExpr → Option PyStr
  | .name id => some id
  | _ => none

/-- One iteration of the `for node in tree` loop of
`extract_class_and_function_info`: append the node's `CodeBlockInfo` (if
any) to `page_info`, then update `classes` / `functions` / `globals`
according to the node kind.  An exception from `node_to_str` propagates. -/
def extractStep (fi : RepoFileInfo) (node : PyStmt) : Except String RepoFileInfo := do
  let info ← nodeToStr node
  let fi := match info with
            | some cb => { fi with page_info := fi.page_info ++ [cb] }
            | none => fi
  match node with
  | .classDef _ _ n body =>
    pure { fi with classes := fi.classes ++ [⟨n, methodNames body⟩] }
  | .functionDef _ _ n => pure { fi with functions := fi.functions ++ [n] }
  | .asyncFunctionDef _ _ n => pure { fi with functions := fi.functions ++ [n] }
  | .assign _ _ targets =>
    pure { fi with globals := fi.globals ++ targets.filterMap nameTarget }
  | .annAssign _ _ target =>
    pure { fi with globals := fi.globals ++ (nameTarget target).toList }
  | _ => pure fi

/-- `RepoParser.extract_class_and_function_info` over a parsed statement
list. -/
def extract (tree : List PyStmt) (filePath : PyStr) : Except String RepoFileInfo :=
  tree.foldlM extractStep { file := filePath }

/-- A source file of a run: its (root-relative) path and the result of
`ast.parse` on its text — `none` when the text cannot be parsed as a syntax
tree.  `ast.parse` itself is external to the embedding. -/
structure FileEntry where
  path : PyStr
  parsed : Option (List PyStmt)

/-- `RepoParser._parse_file`: the `@handle_exception(default_return=[])`
decorator turns a parse failure into an empty statement list. -/
def parseFile (f : FileEntry) : List PyStmt :=
  f.parsed.getD []

/-- One file's work inside `RepoParser.generate_symbols`. -/
def processFile (f : FileEntry) : Except String RepoFileInfo :=
  extract (parseFile f) f.path

/-- `RepoParser.generate_symbols`: process the matched files in order,
collecting one `RepoFileInfo` per file (an uncaught exception from
extraction aborts the loop, as in Python). -/
def generateSymbols : List FileEntry → Except String (List RepoFileInfo)
  | [] => .ok []
  | f :: rest => do
    let fi ← processFile f
    let others ← generateSymbols rest
    pure (fi :: others)

/-! ## Diagram Ingestor (`_split_class_line`, `_parse_classes`) -/

/-- `re.sub(r"<br[^>]*>", "\n", s)`: replace every `<br...>` span (up to
the first `>` after `<br`) with a newline, scanning left to right.  Fuel is
the string length; every rewrite consumes at least four characters. -/
def replaceBrAux : Nat → PyStr → PyStr
  | 0, s => s
  | fuel + 1, s =>
    match findSub s "<br".toList with
    | none => s
    | some i =>
      let pre := s.take i
      let rest := s.drop (i + 3)
      match findSub rest ['>'] with
      | none => s
      | some j => pre ++ '\n' :: replaceBrAux fuel (rest.drop (j + 1))

/-- See `replaceBrAux`. -/
def replaceBr (s : PyStr) : PyStr := replaceBrAux s.length s

/-- `re.split(r"(?<!\\)\|", s)`: split on `|` not preceded by a backslash
(`prev` is the previous character of the original string). -/
def splitUnescPipeGo (prev : Option Char) : PyStr → List PyStr
  | [] => [[]]
  | c :: rest =>
    match splitUnescPipeGo (some c) rest with
    | [] => [[c]]
    | h :: t =>
      if c == '|' && prev ≠ some '\\' then [] :: h :: t else (c :: h) :: t

/-- See `splitUnescPipeGo`. -/
def splitUnescPipe (s : PyStr) : List PyStr := splitUnescPipeGo none s

/-- `RepoParser._split_class_line`: a line encodes a class when it contains
`" [` and, after that point, a `label=<{...}>` span; the quoted prefix is
the package name and the label (with `<br...>` markup turned into newlines)
is the class info. -/
def splitClassLine (line : PyStr) : Option (PyStr × PyStr) :=
  let part_splitor : PyStr := [dq, ' ', '[']
  match findSub line part_splitor with
  | none => none
  | some ix =>
    let class_name := (line.take ix).filter (fun c => !(c == dq))
    let left := line.drop ix
    let begin_flag := "label=<\x7b".toList
    let end_flag := "\x7d>".toList
    if pyContains left begin_flag && pyContains left end_flag then
      let bix := (findSub left begin_flag).getD 0
      let eix := (rfindSub left end_flag).getD 0
      let info := (left.take eix).drop (bix + begin_flag.length)
      some (class_name, replaceBr info)
    else none

/-- Association-list upsert with Python `dict` semantics (assignment to an
existing key overwrites in place, a new key appends). -/
def dictUpsert {V : Type} (d : List (PyStr × V)) (k : PyStr) (v : V) : List (PyStr × V) :=
  if d.any (fun kv => kv.1 == k) then d.map (fun kv => if kv.1 == k then (k, v) else kv)
  else d ++ [(k, v)]

/-- Association-list lookup (`dict.__getitem__` hit / `in` test). -/
def dictLookup {V : Type} (d : List (PyStr × V)) (k : PyStr) : Option V :=
  (d.find? (fun kv => kv.1 == k)).map (fun kv => kv.2)

/-- `metagpt.repo_parser.DotClassInfo` (pydantic model).  `package` is
`Optional[str] = None` in the source but is always assigned right after
construction in `_parse_classes`; modelled as a plain string.  The `sort`
field validator only acts on the (empty) lists present at construction;
the later `append` calls in `_parse_classes` bypass validation, so the
final `compositions`/`aggregations` are in insertion order. -/
structure DotClassInfo where
  name : PyStr
  package : PyStr := []
  attributes : List (PyStr × DotClassAttribute) := []
  methods : List (PyStr × DotClassMethod) := []
  compositions : List PyStr := []
  aggregations : List PyStr := []
deriving Repr, DecidableEq

/-- `metagpt.repo_parser.DotClassRelationship`. -/
structure DotClassRelationship where
  src : PyStr := []
  dest : PyStr := []
  relationship : PyStr := []
  label : Option PyStr := none
deriving Repr, DecidableEq

/-- The attribute-composition accumulation of `_parse_classes`:
`for i in attr.compositions: if i not in class_info.compositions: append`. -/
def addComps (comps newOnes : List PyStr) : List PyStr :=
  newOnes.foldl (fun acc i => if i ∈ acc then acc else acc ++ [i]) comps

/-- The method-aggregation accumulation of `_parse_classes`:
`for i in method.aggregations: if i not in compositions and i not in
aggregations: append`. -/
def addAggs (comps aggs newOnes : List PyStr) : List PyStr :=
  newOnes.foldl (fun acc i => if i ∈ comps ∨ i ∈ acc then acc else acc ++ [i]) aggs

/-- One iteration of the attribute loop of `_parse_classes`. -/
def classAttrStep (ci : DotClassInfo) (m : PyStr) : DotClassInfo :=
  let attr := DotClassAttribute.parse m
  { ci with attributes := dictUpsert ci.attributes attr.name attr,
            compositions := addComps ci.compositions attr.compositions }

/-- One iteration of the method loop of `_parse_classes`. -/
def classMethodStep (ci : DotClassInfo) (f : PyStr) : DotClassInfo :=
  let method := DotClassMethod.parse f
  { ci with methods := dictUpsert ci.methods method.name method,
            aggregations := addAggs ci.compositions ci.aggregations method.aggregations }

/-- The class-building part of `_parse_classes` for one recognized line:
parse each non-empty attribute line and method line, filling `attributes`,
`methods`, `compositions` and `aggregations` exactly as the two `for`
loops do (attributes first, then methods). -/
def buildClassInfo (cn pkg members funcs : PyStr) : DotClassInfo :=
  let afterAttrs := ((splitChar '\n' members).filter (fun m => m ≠ [])).foldl classAttrStep
    { name := cn, package := pkg }
  ((splitChar '\n' funcs).filter (fun f => f ≠ [])).foldl classMethodStep afterAttrs

/-- One line of the `_parse_classes` loop: unrecognized lines are skipped
(`.ok none`); a recognized line whose label does not split into exactly
three unescaped-`|` sections makes the three-way unpacking
`class_name, members, functions = re.split(...)` raise `ValueError`. -/
def parseClassLine (line : PyStr) : Except String (Option DotClassInfo) :=
  match splitClassLine line with
  | none => .ok none
  | some pr =>
    match splitUnescPipe pr.2 with
    | [cn, members, funcs] => .ok (some (buildClassInfo cn pr.1 members funcs))
    | _ => .error "ValueError: not enough values to unpack"

/-- The line loop of `RepoParser._parse_classes` over the file content. -/
def parseClassesGo : List PyStr → List DotClassInfo → Except String (List DotClassInfo)
  | [], acc => .ok acc
  | l :: ls, acc =>
    match parseClassLine l with
    | .error e => .error e
    | .ok none => parseClassesGo ls acc
    | .ok (some ci) => parseClassesGo ls (acc ++ [ci])

/-- `RepoParser._parse_classes` on the text of `classes.dot`. -/
def parseClasses (data : PyStr) : Except String (List DotClassInfo) :=
  parseClassesGo (splitChar '\n' data) []

/-! ## Namespace Reconciler (`_create_path_mapping`, `_find_root`,
`_repair_ns`, `_repair_namespaces`)

`_create_path_mapping` walks the real filesystem; the directory tree under
the analysis root is modelled as data (`FsNode`), with `iterdir` returning
children in the given order.  The `while` loops of `_find_root` and
`_repair_ns` shrink their string by at least one character per iteration,
so fuel equal to the string length plus one never runs out. -/

/-- A directory entry of the analyzed tree. -/
inductive FsNode where
  | file (fname : PyStr)
  | dir (dname : PyStr) (children : List FsNode)
deriving Repr

/-- `str(path).replace("/", ".")`. -/
def dotOf (s : PyStr) : PyStr := s.map (fun c => if c == '/' then '.' else c)

/-- `root_namespace.replace(".", "/")`. -/
def slashOf (s : PyStr) : PyStr := s.map (fun c => if c == '.' then '/' else c)

/-- `Path(f).with_suffix("")`: drop the extension of the final path
component (the part from its last `.`, unless that dot leads the name). -/
def withSuffixRemoved (p : PyStr) : PyStr :=
  let nameStart := match rfindSub p ['/'] with
                   | some i => i + 1
                   | none => 0
  let nm := p.drop nameStart
  match rfindSub nm ['.'] with
  | some i => if i = 0 then p else p.take (nameStart + i)
  | none => p

mutual

/-- One child of the `iterdir` loop of `_create_path_mapping`: a file
contributes its full path to the `files` list (`.inr`); a subdirectory
contributes its whole recursive mapping (`.inl`). -/
def cpmNode (path : PyStr) : FsNode → List (PyStr × PyStr) ⊕ PyStr
  | .file n => .inr (path ++ ['/'] ++ n)
  | .dir n cs =>
    let childPath := path ++ ['/'] ++ n
    .inl (cpmGo childPath [(dotOf childPath, childPath)] [] cs)

/-- The `iterdir` loop of `_create_path_mapping` for one directory, begun
with the directory's own `{dotted: path}` entry: subdirectory mappings are
merged during the loop (`dict.update`); after the loop, one entry per
collected file is added (extension removed in the dotted key). -/
def cpmGo (path : PyStr) (acc : List (PyStr × PyStr)) (files : List PyStr) :
    List FsNode → List (PyStr × PyStr)
  | [] => files.foldl (fun m f => dictUpsert m (dotOf (withSuffixRemoved f)) f) acc
  | c :: rest =>
    match cpmNode path c with
    | .inr f => cpmGo path acc (files ++ [f]) rest
    | .inl sub => cpmGo path (sub.foldl (fun m kv => dictUpsert m kv.1 kv.2) acc) files rest

end

/-- `RepoParser._create_path_mapping` over the modelled tree rooted at
`path` with the given children. -/
def createPathMapping (path : PyStr) (children : List FsNode) : List (PyStr × PyStr) :=
  cpmGo path [(dotOf path, path)] [] children

/-- The `while` loop of `RepoParser._find_root`: drop leading dotted
segments from `left` until it is a substring of `package` or has no dot
left. -/
def findRootGo : Nat → PyStr → PyStr → PyStr
  | 0, left, _ => left
  | fuel + 1, left, package =>
    if left = [] then left
    else if pyContains package left then left
    else if !(pyContains left ['.']) then left
    else findRootGo fuel (left.drop ((findSub left ['.']).getD 0 + 1)) package

/-- `RepoParser._find_root`: anchor the diagram tool's namespace by the
longest dotted suffix of the analysis root found inside the first class's
package; returns `"." + full_key[0:ix]`. -/
def findRoot (full_key package : PyStr) : PyStr :=
  let left := findRootGo (full_key.length + 1) full_key package
  let ix := pyRfind full_key left
  ['.'] ++ pySlice full_key 0 ix

/-- The `while` loop of `RepoParser._repair_ns`: strip trailing dotted
segments (`file_ns[0:file_ns.rfind(".")]`, which drops a single character
when there is no dot) until `file_ns` is a known mapping key or empty.
Returns the final `file_ns` and the last value assigned to the loop-local
`ix` (`none` when the loop never assigned it). -/
def repairNsGo (mappings : List (PyStr × PyStr)) :
    Nat → PyStr → Option Int → PyStr × Option Int
  | 0, file_ns, ix => (file_ns, ix)
  | fuel + 1, file_ns, ix =>
    if file_ns = [] then (file_ns, ix)
    else
      match dictLookup mappings file_ns with
      | some _ => (file_ns, ix)
      | none =>
        let i := pyRfind file_ns ['.']
        repairNsGo mappings fuel (pySlice file_ns 0 i) (some i)

/-- `RepoParser._repair_ns`.  After the loop, the source reads the
loop-local `ix` (an `UnboundLocalError` when the very first lookup
succeeded, since `ix` was never assigned) and then `mappings[file_ns]`
(a `KeyError` when the loop exhausted `file_ns` and the empty string is
not a key); both raises are modelled in `Except`. -/
def repairNs (package : PyStr) (mappings : List (PyStr × PyStr)) : Except String PyStr :=
  let pr := repairNsGo mappings (package.length + 1) package none
  match pr.2 with
  | none => .error "UnboundLocalError: ix referenced before assignment"
  | some ix =>
    let internal_ns := pySlice package (ix + 1) (package.length : Int)
    match dictLookup mappings pr.1 with
    | none => .error "KeyError"
    | some mv => .ok (mv ++ [':'] ++ internal_ns.map (fun c => if c == '.' then ':' else c))

/-- `RepoParser._repair_namespaces`: with no class nodes, return empty
results; otherwise anchor the root namespace on the first class, build the
root-relative path mapping, and rewrite every class package and every
relationship endpoint through `_repair_ns`. -/
def repairNamespaces (class_views : List DotClassInfo)
    (relationship_views : List DotClassRelationship) (path : PyStr)
    (fsChildren : List FsNode) :
    Except String (List DotClassInfo × List DotClassRelationship × PyStr) :=
  match class_views with
  | [] => .ok ([], [], [])
  | c :: _ =>
    let full_key := dotOf (path.dropWhile (fun ch => ch == '/'))
    let root_namespace := findRoot full_key c.package
    let root_path := slashOf root_namespace
    let mappings := createPathMapping path fsChildren
    let new_mappings := mappings.foldl
      (fun m kv => dictUpsert m (kv.1.drop root_namespace.length) (kv.2.drop root_path.length)) []
    do
      let cs ← class_views.mapM (fun ci => do
        let p ← repairNs ci.package new_mappings
        pure { ci with package := p })
      let rs ← relationship_views.mapM (fun r => do
        let s ← repairNs r.src new_mappings
        let d ← repairNs r.dest new_mappings
        pure { r with src := s, dest := d })
      pure (cs, rs, root_path)

/-! ## Helper lemmas -/

/-- Unfolding one step of the `addAggs` fold. -/
theorem addAggs_cons (comps aggs : List PyStr) (i : PyStr) (ns : List PyStr) :
    addAggs comps aggs (i :: ns) =
      addAggs comps (if i ∈ comps ∨ i ∈ aggs then aggs else aggs ++ [i]) ns := rfl

/-- Every element of an `addAggs` accumulation lies outside `comps`,
provided the starting accumulator does: the guard admits only `i ∉ comps`. -/
theorem addAggs_not_mem_comps (comps : List PyStr) :
    ∀ (newOnes aggs : List PyStr), (∀ x ∈ aggs, x ∉ comps) →
      ∀ x ∈ addAggs comps aggs newOnes, x ∉ comps := by
  intro newOnes
  induction newOnes with
  | nil =>
    intro aggs h x hx
    exact h x hx
  | cons i ns ih =>
    intro aggs h x hx
    rw [addAggs_cons] at hx
    refine ih _ ?_ x hx
    by_cases hc : i ∈ comps ∨ i ∈ aggs
    · rw [if_pos hc]; exact h
    · rw [if_neg hc]
      intro y hy
      rcases List.mem_append.mp hy with h1 | h2
      · exact h y h1
      · have hyi : y = i := by simpa using h2
        subst hyi
        exact fun hmem => hc (Or.inl hmem)

/-- The method loop never changes `compositions`. -/
theorem classMethodStep_compositions (ci : DotClassInfo) (f : PyStr) :
    (classMethodStep ci f).compositions = ci.compositions := rfl

/-- The attribute loop never changes `aggregations`. -/
theorem attrFold_aggregations (lines : List PyStr) :
    ∀ ci : DotClassInfo, (lines.foldl classAttrStep ci).aggregations = ci.aggregations := by
  induction lines with
  | nil => intro ci; rfl
  | cons m ms ih => intro ci; simpa [List.foldl_cons] using ih (classAttrStep ci m)

/-- The method loop preserves disjointness of `aggregations` from the
(fixed) `compositions`. -/
theorem methodFold_disjoint (lines : List PyStr) :
    ∀ ci : DotClassInfo, (∀ x ∈ ci.aggregations, x ∉ ci.compositions) →
      ∀ x ∈ (lines.foldl classMethodStep ci).aggregations,
        x ∉ (lines.foldl classMethodStep ci).compositions := by
  induction lines with
  | nil =>
    intro ci h x hx
    exact h x hx
  | cons f fs ih =>
    intro ci h
    simp only [List.foldl_cons]
    refine ih (classMethodStep ci f) ?_
    intro x hx
    have hx' : x ∈ addAggs ci.compositions ci.aggregations
        (DotClassMethod.parse f).aggregations := hx
    rw [classMethodStep_compositions]
    exact addAggs_not_mem_comps ci.compositions _ _ h x hx'

/-- `generateSymbols` distributes over list concatenation: each file is
processed independently, in order. -/
theorem generateSymbols_append (l₁ l₂ : List FileEntry) :
    generateSymbols (l₁ ++ l₂) =
      generateSymbols l₁ >>= fun a => generateSymbols l₂ >>= fun b => pure (a ++ b) := by
  induction l₁ with
  | nil =>
    cases h : generateSymbols l₂ <;>
      simp [generateSymbols, h, Bind.bind, Except.bind, pure, Except.pure]
  | cons f fs ih =>
    cases hf : processFile f <;>
      cases hfs : generateSymbols fs <;>
        cases hl : generateSymbols l₂ <;>
          simp_all [generateSymbols, Bind.bind, Except.bind, pure, Except.pure]

/-! ## Claims -/

/-- C1.  For every input string `v`, `DotClassAttribute.parse v` and
`DotClassMethod.parse v` return a descriptor: both parsers are total Lean
functions faithfully mirroring the Python bodies, which contain no raising
operation (`find`/`rfind` return `-1` on a miss and slices handle negative
indices), and the returned `name`/`type_`/`default_` fields are strings by
construction (possibly empty). -/
theorem parse_total_all_strings (v : PyStr) :
    ∃ (a : DotClassAttribute) (m : DotClassMethod),
      DotClassAttribute.parse v = a ∧ DotClassMethod.parse v = m :=
  ⟨_, _, rfl, rfl⟩

/-- C2, counterexample.  Symbol extraction does raise on a recognized-kind
statement with an unrecognized embedded expression: an expression statement
whose value is a bare name makes `_parse_expr` raise `NotImplementedError`,
which nothing catches, so `extract_class_and_function_info` fails. -/
theorem extract_raises_on_unrecognized_expr_value :
    exceptIsOk (extract [PyStmt.exprStmt 1 1 (PyExpr.name ['x'])] ['f']) = false := rfl

/-- C2, amended.  A top-level statement whose kind is not recognized (no
entry in `node_to_str`'s mapping), and a `Try` statement, are skipped
without raising (`node_to_str` returns `None`); but an `Expr` statement
whose value is neither a `Constant` nor a `Call` raises
`NotImplementedError` (see the counterexample). -/
theorem nodeToStr_skips_unrecognized_kinds (l e : Nat) (k : PyStr) :
    nodeToStr (PyStmt.otherStmt l e k) = .ok none ∧
    nodeToStr (PyStmt.tryStmt l e) = .ok none :=
  ⟨rfl, rfl⟩

/-- C3.  Evaluation at the failing input `"f(b: B, a: A)"`: the
`aggregations` of the parsed method are the deduplicated union of the
parameter compositions — but `DotClassMethod` has no `sort` validator, so
the result is `list(set(...))` in set-iteration order (modelled as
insertion order), not the lexicographically sorted `["A", "B"]` that
sorting would give. -/
theorem method_aggregations_unsorted_eval :
    (DotClassMethod.parse "f(b: B, a: A)".toList).aggregations = [['B'], ['A']] ∧
    sortStrs (DotClassMethod.parse "f(b: B, a: A)".toList).aggregations = [['A'], ['B']] ∧
    ([['B'], ['A']] : List PyStr) ≠ [['A'], ['B']] :=
  ⟨rfl, rfl, by decide⟩

/-- C4.  For every class produced by the `_parse_classes` class-building
loops, `compositions` and `aggregations` are disjoint: a name in any
attribute's compositions never appears in the class's aggregations, because
the method loop only appends names not already in `compositions` and the
attribute loop (which fixes `compositions`) runs first. -/
theorem class_compositions_aggregations_disjoint (cn pkg members funcs : PyStr) :
    ∀ x ∈ (buildClassInfo cn pkg members funcs).aggregations,
      x ∉ (buildClassInfo cn pkg members funcs).compositions := by
  intro x hx
  refine methodFold_disjoint _ _ ?_ x hx
  intro y hy
  rw [attrFold_aggregations] at hy
  simp at hy

/-- Witness for C4 at a concrete class: `Bar` (reached via a method) is in
the aggregations, hence not in the compositions. -/
theorem class_disjoint_witness :
    "Bar".toList ∈
      (buildClassInfo "C".toList "p".toList "a: Foo".toList "f() : Bar".toList).aggregations ∧
    "Bar".toList ∉
      (buildClassInfo "C".toList "p".toList "a: Foo".toList "f() : Bar".toList).compositions :=
  ⟨by decide,
   class_compositions_aggregations_disjoint "C".toList "p".toList "a: Foo".toList
     "f() : Bar".toList "Bar".toList (by decide)⟩

/-- C5, counterexample.  Namespace reconciliation is not idempotent: for
the root `/r` containing the single file `m.py` and one class with raw
package `r.m.C`, the first application yields the canonical package
`r/m.py:C`, but applying `_repair_namespaces` again to that output rewrites
it to `r:r/m:py:C` (the already-canonical identifier is re-parsed as a raw
dotted package). -/
theorem repair_namespaces_not_idempotent :
    repairNamespaces [{ name := ['C'], package := "r.m.C".toList }] [] "/r".toList
        [FsNode.file "m.py".toList] =
      .ok ([{ name := ['C'], package := "r/m.py:C".toList }], [], ['/']) ∧
    repairNamespaces [{ name := ['C'], package := "r/m.py:C".toList }] [] "/r".toList
        [FsNode.file "m.py".toList] =
      .ok ([{ name := ['C'], package := "r:r/m:py:C".toList }], [], ['/']) ∧
    "r:r/m:py:C".toList ≠ "r/m.py:C".toList :=
  ⟨rfl, rfl, by decide⟩

/-- C5, amended.  Reconciliation is not idempotent in general (see the
counterexample): re-applying `_repair_namespaces` re-parses canonical
`path:name` identifiers as raw dotted packages and rewrites them again.
Only the degenerate empty graph is a fixed point: with no class nodes the
function returns empty classes, empty relationships and an empty root, and
applying it to that output returns the same. -/
theorem repair_namespaces_empty_fixed_point (rv : List DotClassRelationship)
    (path : PyStr) (fs : List FsNode) :
    repairNamespaces [] rv path fs = .ok ([], [], []) ∧
    repairNamespaces [] [] path fs = .ok ([], [], []) :=
  ⟨rfl, rfl⟩

/-- C6.  A file whose text cannot be parsed (`parsed = none`) yields an
empty statement list (the `handle_exception` default), hence a
`RepoFileInfo` carrying only its path; and within one `generate_symbols`
run the records of all other files are exactly what the same run without
the bad file produces for them. -/
theorem parse_error_contained (pre post : List FileEntry) (p : PyStr) :
    parseFile { path := p, parsed := none } = [] ∧
    processFile { path := p, parsed := none } = .ok { file := p } ∧
    generateSymbols (pre ++ { path := p, parsed := none } :: post) =
      (generateSymbols pre >>= fun a => generateSymbols post >>= fun b =>
        pure (a ++ ({ file := p } : RepoFileInfo) :: b)) ∧
    generateSymbols (pre ++ post) =
      (generateSymbols pre >>= fun a => generateSymbols post >>= fun b =>
        pure (a ++ b)) := by
  refine ⟨rfl, rfl, ?_, generateSymbols_append pre post⟩
  rw [generateSymbols_append]
  cases hp : generateSymbols pre <;>
    cases hq : generateSymbols post <;>
      simp [generateSymbols, processFile, parseFile, extract, hp, hq,
        Bind.bind, Except.bind, pure, Except.pure]

/-- C7.  On `"f(a: int, b: List[int]) : Dict[str, Foo]"` the method parser
finds exactly 2 parameters (the comma inside `List[int]` sits at bracket
depth 1 and is not a split point), return compositions `["Foo"]`, and
aggregations `["Foo"]`. -/
theorem method_parse_bracket_depth_eval :
    (DotClassMethod.parse "f(a: int, b: List[int]) : Dict[str, Foo]".toList).args.length = 2 ∧
    (DotClassMethod.parse
        "f(a: int, b: List[int]) : Dict[str, Foo]".toList).return_args.compositions =
      ["Foo".toList] ∧
    (DotClassMethod.parse "f(a: int, b: List[int]) : Dict[str, Foo]".toList).aggregations =
      ["Foo".toList] :=
  ⟨rfl, rfl, rfl⟩

/-- C8.  On `"mode: Literal['a','b']"` the attribute parser excises the
bracket-delimited literal payload from composition scanning (compositions
are empty) while the stored type keeps the full quoted literal form. -/
theorem literal_attribute_eval :
    (DotClassAttribute.parse "mode: Literal['a','b']".toList).compositions = [] ∧
    (DotClassAttribute.parse "mode: Literal['a','b']".toList).type_ =
      "Literal['a','b']".toList :=
  ⟨rfl, rfl⟩

/-- C9.  All three descriptor parsers store the original unmodified input
in the `description` field, so the raw text is recoverable from the parsed
value. -/
theorem parse_preserves_description (v : PyStr) :
    (DotClassAttribute.parse v).description = v ∧
    (DotClassMethod.parse v).description = v ∧
    (DotReturn.parse v).description = v := by
  refine ⟨rfl, rfl, ?_⟩
  unfold DotReturn.parse
  split <;> rfl

/-- C10.  The line `\"A\" [label=<{A}>];` is recognized as a class line
(it has the quoted-name marker and a `label=<{...}>` span) but its label
splits into one section, not three, so the three-way unpacking in
`_parse_classes` raises `ValueError` instead of skipping the line. -/
theorem class_line_bad_label_raises :
    (splitClassLine "\"A\" [label=<\x7bA\x7d>];".toList).isSome = true ∧
    exceptIsOk (parseClassLine "\"A\" [label=<\x7bA\x7d>];".toList) = false ∧
    exceptIsOk (parseClasses "\"A\" [label=<\x7bA\x7d>];".toList) = false :=
  ⟨rfl, rfl, rfl⟩

end RepoParserModel
